import Mathlib

/-!
Verification of the conversation-state and response-resolution pipeline of the
LINE health-companion bot (src/index.js).  Texts are modelled as `List Char`;
calendar dates as integers counting civil days (the source manipulates
ISO `YYYY-MM-DD` strings at local midnight in a fixed timezone, so date
arithmetic is exactly integer day arithmetic); millisecond clocks as `Int`.
External data tables (knowledge JSON files) and the remote sheet/backend are
parameters of the model.
-/

namespace LineBot

/-- Texts are lists of characters. -/
abbrev Text := List Char

/-! ## Character classes and elementary string operations (JS semantics) -/

/-- Models the JavaScript regex class `\s` (whitespace), restricted to the
code points it matches: ASCII whitespace, NBSP, the Unicode space block,
line/paragraph separators, narrow/ideographic spaces and the BOM. -/
def isJsWs (c : Char) : Bool :=
  let n := c.toNat
  n = 0x20 || n = 0x09 || n = 0x0a || n = 0x0d || n = 0x0b || n = 0x0c ||
  n = 0xa0 || n = 0x1680 || (0x2000 ≤ n && n ≤ 0x200a) ||
  n = 0x2028 || n = 0x2029 || n = 0x202f || n = 0x205f ||
  n = 0x3000 || n = 0xfeff

/-- The punctuation set stripped by `normalizeText`:
the source regex `[，。！？、,.!?]` (src/index.js:431). -/
def isStrippedPunct (c : Char) : Bool :=
  c = '，' || c = '。' || c = '！' || c = '？' || c = '、' ||
  c = ',' || c = '.' || c = '!' || c = '?'

/-- Models `String.prototype.toLowerCase` character-wise; agrees with the
JS function on ASCII and on the CJK code points this program handles
(CJK characters have no case). -/
def jsToLower (s : Text) : Text :=
  s.map Char.toLower

/-- Models `String.prototype.trim`: drop JS whitespace from both ends. -/
def trimWs (s : Text) : Text :=
  ((s.dropWhile isJsWs).reverse.dropWhile isJsWs).reverse

/-- Models `replace(/\s+/g, " ")` (src/index.js:626): each maximal run of
whitespace is replaced by a single space.  `pending` records that a run is
in progress whose single replacement space has not been emitted yet. -/
def collapseWsAux (pending : Bool) : Text → Text
  | [] => if pending then [' '] else []
  | c :: rest =>
      if isJsWs c then collapseWsAux true rest
      else if pending then ' ' :: c :: collapseWsAux false rest
      else c :: collapseWsAux false rest

/-- Replace every maximal whitespace run by one space. -/
def collapseWs (s : Text) : Text := collapseWsAux false s

/-- Models `replace(/[？]/g, "?")` (src/index.js:625). -/
def fullWidthQToHalf (s : Text) : Text :=
  s.map fun c => if c = '？' then '?' else c

/-- Models `String.prototype.includes(pat)`: `pat` occurs as a contiguous
substring of `hay`. -/
def jsIncludes (hay pat : Text) : Bool :=
  match hay with
  | [] => pat.isEmpty
  | _ :: rest => pat.isPrefixOf hay || jsIncludes rest pat

/-- Models `String.prototype.replaceAll(pat, repl)` for a nonempty string
pattern: scan left to right, replacing each (non-overlapping) occurrence and
continuing after the replacement.  Fuel-indexed for structural recursion;
`replaceAll` supplies fuel `s.length`, which is enough because each step
consumes at least one character of the remaining input. -/
def replaceAllAux (pat repl : Text) : Nat → Text → Text
  | _, [] => []
  | 0, s => s
  | fuel + 1, c :: rest =>
      if pat.isPrefixOf (c :: rest) then
        repl ++ replaceAllAux pat repl fuel ((c :: rest).drop pat.length)
      else c :: replaceAllAux pat repl fuel rest

/-- `replaceAll pat repl s`: all occurrences of `pat` in `s` replaced. -/
def replaceAll (pat repl s : Text) : Text :=
  replaceAllAux pat repl s.length s

/-! ## Text Normalizer (src/index.js:427-448) -/

/-- `normalizeText` (src/index.js:427-432): lowercase, delete every
whitespace character (`replace(/\s+/g, "")` — runs replaced by the empty
string), then delete the fixed punctuation set. -/
def normalizeText (s : Text) : Text :=
  ((jsToLower s).filter fun c => !isJsWs c).filter fun c => !isStrippedPunct c

/-- The ordered synonym-folding rules of `applySynonyms`
(src/index.js:434-448), applied sequentially, each replacing all
occurrences, later rules seeing earlier rules' output. -/
def synonymRules : List (Text × Text) :=
  [ ("今天哪一天".toList, "今天是哪一天".toList)
  , ("今天哪天".toList, "今天是哪一天".toList)
  , ("幾天".toList, "第幾天".toList)
  , ("喝茶".toList, "茶".toList)
  , ("咖啡因".toList, "咖啡".toList)
  , ("酒精".toList, "酒".toList)
  , ("手搖飲".toList, "飲料".toList)
  , ("珍珠奶茶".toList, "珍奶".toList) ]

/-- `applySynonyms` (src/index.js:434-448). -/
def applySynonyms (t : Text) : Text :=
  synonymRules.foldl (fun out r => replaceAll r.1 r.2 out) t

/-! ## Program Clock (src/index.js:370-425, 577-586) -/

/-- `daysBetweenISO` (src/index.js:379-383): both dates are taken at local
midnight, so the floored millisecond quotient is the exact difference of
civil-day indices. -/
def daysBetweenISO (startISO todayISO : Int) : Int :=
  todayISO - startISO

/-- `clampDay` (src/index.js:385-389). -/
def clampDay (day : Int) : Int :=
  if day < 1 then 1 else if day > 45 then 45 else day

/-- `resolveDayType` (src/index.js:391-393): day-type table lookup with
default `"SLIM"`; the table is the loaded `day_type_map.json`, a parameter
of the model. -/
def resolveDayType (dayTypeMap : Int → Option String) (day : Int) : String :=
  (dayTypeMap day).getD "SLIM"

/-- `dayTypeLabel` (src/index.js:395-405). -/
def dayTypeLabel (dt : String) : String :=
  if dt = "PREP" then "準備日"
  else if dt = "PROTEIN_CONSECUTIVE" then "連續蛋白日"
  else if dt = "PROTEIN_SINGLE" then "單日蛋白日"
  else if dt = "SLIM_FIRST" then "第一次纖體日"
  else if dt = "SLIM" then "纖體日"
  else if dt = "METABOLIC" then "新陳代謝日"
  else dt

/-- Core of `getCurrentDayAndTypeFromStartISO_` for a present start date:
current day, clamped, with its day type. -/
def getCurrentDayAndType (dayTypeMap : Int → Option String)
    (startISO todayISO : Int) : Int × String :=
  let day := clampDay (daysBetweenISO startISO todayISO + 1)
  (day, resolveDayType dayTypeMap day)

/-- `getCurrentDayAndTypeFromStartISO_` (src/index.js:418-425): `null` start
yields `null`; otherwise the clamped current day and its type.  (The
`Number.isFinite` guard in the source never fires on well-formed dates.) -/
def getCurrentDayAndTypeFromStartISO_ (dayTypeMap : Int → Option String)
    (startISO : Option Int) (todayISO : Int) : Option (Int × String) :=
  match startISO with
  | none => none
  | some s => some (getCurrentDayAndType dayTypeMap s todayISO)

/-- `buildStartISOFromDayInput` (src/index.js:577-586):
`start = today - (inputDay - 1)` days. -/
def buildStartISOFromDayInput (todayISO : Int) (inputDay : Int) : Int :=
  todayISO - (inputDay - 1)

/-! ## FAQ Matcher (src/index.js:450-474) -/

/-- One entry of the loaded `faq_50.json` item list.  The source skips items
whose `answer` is falsy; an absent answer is modelled by the empty text. -/
structure FAQItem where
  keywords : List Text
  answer : Text
  deriving Repr, DecidableEq

/-- `matchFAQ` (src/index.js:450-474): fold the normalized, synonym-folded
keywords of each item into a score; keep the strictly best item; answer it
if the best score reaches 1. -/
def matchFAQ (faqItems : List FAQItem) (text : Text) : Option Text :=
  let t := applySynonyms (normalizeText text)
  if t = [] then none
  else
    let best := faqItems.foldl
      (fun (best : Option Text × Nat) item =>
        if item.answer = [] then best
        else
          let score := item.keywords.foldl
            (fun sc kwRaw =>
              let kw := applySynonyms (normalizeText kwRaw)
              if kw = [] then sc
              else if jsIncludes t kw then sc + min 3 ((kw.length + 1) / 2)
              else sc) 0
          if best.2 < score then (some item.answer, score) else best)
      (none, 0)
    if 1 ≤ best.2 then best.1 else none

/-! ## Command parsing inside the resolver -/

/-- JS decimal-digit test (regex `\d`). -/
def isDigitChar (c : Char) : Bool := '0' ≤ c && c ≤ '9'

/-- Decimal value of a digit list (`parseInt(_, 10)` on a 1-2 digit match). -/
def digitsToNat (ds : Text) : Nat :=
  ds.foldl (fun n c => n * 10 + (c.toNat - '0'.toNat)) 0

/-- The test `text.match(/^第\s*(\d{1,2})\s*天$/)` (src/index.js:726) with
its captured number.  The regex matches exactly when the text is `第`, then
optional whitespace, then a maximal digit run of length 1 or 2, then
optional whitespace, then `天` at the end (a digit run of length ≥ 3 cannot
match: any 1-2 digit prefix of it is followed by a digit, which `\s*天$`
rejects). -/
def parseSetDay (t : Text) : Option Nat :=
  match t with
  | c :: rest =>
      if c = '第' then
        let r1 := rest.dropWhile isJsWs
        let ds := r1.takeWhile isDigitChar
        if (ds.length = 1 ∨ ds.length = 2) ∧
            ((r1.drop ds.length).dropWhile isJsWs = ['天']) then
          some (digitsToNat ds)
        else none
      else none
  | [] => none

/-- The ten fixed time-slot labels of the regex alternation
`/(07:45|08:00|10:00|11:45|12:00|14:00|16:00|17:45|18:00|20:00)/`
(src/index.js:774), in source order. -/
def timeTokens : List Text :=
  [ "07:45".toList, "08:00".toList, "10:00".toList, "11:45".toList
  , "12:00".toList, "14:00".toList, "16:00".toList, "17:45".toList
  , "18:00".toList, "20:00".toList ]

/-- `text.match(/(07:45|…|20:00)/)`: scan positions left to right; at each
position try the alternatives in listed order; return the first label that
matches.  This is an unanchored regex, so any occurrence of a label inside
the text matches. -/
def findTimeToken : Text → Option Text
  | [] => none
  | c :: rest =>
      match timeTokens.find? (fun tok => tok.isPrefixOf (c :: rest)) with
      | some tok => some tok
      | none => findTimeToken rest

/-! ## Conversation state, environment, effects and replies -/

/-- `getTarget_` (src/index.js:407-412): the kind of chat scope. -/
inductive TargetType where
  | user
  | group
  | room
  deriving Repr, DecidableEq

/-- The string the source uses for each target type when building keys. -/
def TargetType.str : TargetType → String
  | .user => "user"
  | .group => "group"
  | .room => "room"

/-- `cacheKey_` (src/index.js:414-416). -/
def cacheKey_ (targetType : TargetType) (targetId : String) : String :=
  targetType.str ++ ":" ++ targetId

/-- The mutable process state: `aiCooldown` (src/index.js:289) mapping a
target id to the last accepted AI-call time in ms, and `startCache`
(src/index.js:367) mapping a cache key to the stored start date. -/
structure BotState where
  aiCooldown : String → Option Int
  startCache : String → Option Int

/-- The read-only environment of one `handleEvent` call: the loaded
knowledge tables, the remote sheet's answer, the AI backend's answer, the
civil date and the millisecond clock. -/
structure Env where
  faqItems : List FAQItem
  dayTypeMap : Int → Option String
  menuDetails : String → Text → Option Text
  pushTemplates : String → Option Text
  companionByDay : Int → Option Text
  sheet : TargetType → String → Option Int
  backend : Text → Text
  today : Int
  now : Int

/-- Observable side effects of one `handleEvent` call, in program order. -/
inductive Effect where
  | sheetGet (targetType : TargetType) (targetId : String)
  | cacheWrite (key : String) (startISO : Int)
  | sheetUpsert (targetType : TargetType) (targetId : String) (startISO : Int)
  | setCooldown (targetId : String) (timestamp : Int)
  | callBackend (question : Text)
  deriving Repr, DecidableEq

/-- The reply of one `handleEvent` call, one constructor per `replyText`
call site of src/index.js:617-804, carrying the data interpolated into the
fixed message template at that site. -/
inductive Reply where
  /-- src/index.js:646 — the fixed cooldown wait message. -/
  | waitMsg
  /-- src/index.js:656-659 — usage hint for a bare `請問`. -/
  | usageHint
  /-- src/index.js:663 — the AI backend's answer text. -/
  | aiAnswerText (ans : Text)
  /-- src/index.js:669 — `helpText()`. -/
  | helpMsg
  /-- src/index.js:673-677 — the `狀態` diagnostic line. -/
  | statusMsg
  /-- src/index.js:684-691 — the `debug-start` diagnostic. -/
  | debugStartMsg
  /-- src/index.js:699-702 — `開始` when a start date already exists. -/
  | startExisting (day : Int) (label : String)
  /-- src/index.js:712-715 — `開始` creating today's start. -/
  | startNew (day : Int) (label : String) (companion : Text)
  /-- src/index.js:722 — `重新開始`. -/
  | restartDone
  /-- src/index.js:729 — day number out of the range 1-45. -/
  | setDayInvalid
  /-- src/index.js:738-741 — `第N天` accepted. -/
  | setDayOk (day : Nat) (label : String) (companion : Text)
  /-- src/index.js:748 — menu asked with no start date. -/
  | menuNoStart
  /-- src/index.js:754-760 — today's menu summary. -/
  | menuMsg (day : Int) (label : String) (push : Text) (companion : Text)
  /-- src/index.js:766 — companion asked with no start date. -/
  | companionNoStart
  /-- src/index.js:770 — the day's companion line. -/
  | companionLine (companion : Text)
  /-- src/index.js:777 — time slot asked with no start date. -/
  | timeSlotNoStart
  /-- src/index.js:782 — no scripted content for this day type and slot. -/
  | timeSlotNoContent (label : String)
  /-- src/index.js:784 — the scripted slot detail. -/
  | timeSlotDetail (day : Int) (label : String) (tok : Text) (slot : Text)
  /-- src/index.js:789 — a matched FAQ answer. -/
  | faqAnswer (ans : Text)
  /-- src/index.js:792 — the static default guidance. -/
  | fallbackMsg
  deriving Repr, DecidableEq

/-- Result of one `handleEvent` call: the reply (none = silent drop), the
effect trace in program order, and the post-state. -/
structure HandleOutput where
  reply : Option Reply
  effects : List Effect
  state : BotState

/-- Point update of a string-keyed map. -/
def setKey (m : String → Option Int) (k : String) (v : Int) :
    String → Option Int :=
  fun k' => if k' = k then some v else m k'

/-- `ensureStartISO` (src/index.js:564-575): in-memory cache first; else ask
the sheet and populate the cache on a hit. -/
def ensureStartISO (env : Env) (st : BotState)
    (targetType : TargetType) (targetId : String) :
    Option Int × BotState × List Effect :=
  let key := cacheKey_ targetType targetId
  match st.startCache key with
  | some d => (some d, st, [])
  | none =>
      match env.sheet targetType targetId with
      | some d =>
          (some d, { st with startCache := setKey st.startCache key d },
           [.sheetGet targetType targetId, .cacheWrite key d])
      | none => (none, st, [.sheetGet targetType targetId])

/-- The default companion lines of src/index.js (`companionByDay` misses). -/
def companionDefaultStartNew : Text := "第一天最重要的不是完美，而是開始。".toList

/-- Default companion for the `第N天` branch (src/index.js:736). -/
def companionDefaultSetDay : Text := "我們一步一步來就好 😊".toList

/-- Default companion for menu and reminder branches (src/index.js:752). -/
def companionDefaultMenu : Text := "今天不用完美，方向對就很好 😊".toList

/-- The AI-trigger branch (src/index.js:640-664): cooldown gate, timestamp
write, `請問`-stripping, usage hint on an empty question, backend call. -/
def aiBranch (env : Env) (st : BotState) (targetId : String) (t : Text) :
    HandleOutput :=
  let last := (st.aiCooldown targetId).getD 0
  if env.now - last < 20000 then
    { reply := some .waitMsg, effects := [], state := st }
  else
    let st1 := { st with
      aiCooldown := setKey st.aiCooldown targetId env.now }
    let question := trimWs ((t.drop 2).dropWhile isJsWs)
    if question = [] then
      { reply := some .usageHint
        effects := [.setCooldown targetId env.now]
        state := st1 }
    else
      { reply := some (.aiAnswerText (env.backend question))
        effects := [.setCooldown targetId env.now, .callBackend question]
        state := st1 }

/-- The resolver chain of `handleEvent` (src/index.js:617-804) after the
scope filter, on the already-preprocessed text `t`, in source order:
AI trigger, help, 狀態, debug-start, 開始/start, 重新開始, 第N天, menu,
companion reminder, time slot, FAQ, fallback. -/
def routeText (env : Env) (st : BotState)
    (targetType : TargetType) (targetId : String) (t : Text) : HandleOutput :=
  if "請問".toList.isPrefixOf t then aiBranch env st targetId t
  else if t = "help".toList ∨ t = "幫助".toList ∨ t = "使用說明".toList then
    { reply := some .helpMsg, effects := [], state := st }
  else if t = "狀態".toList then
    { reply := some .statusMsg, effects := [], state := st }
  else if t = "debug-start".toList then
    match env.sheet targetType targetId with
    | some d =>
        { reply := some .debugStartMsg
          effects := [.sheetGet targetType targetId,
                      .cacheWrite (cacheKey_ targetType targetId) d]
          state := { st with
            startCache := setKey st.startCache (cacheKey_ targetType targetId) d } }
    | none =>
        { reply := some .debugStartMsg
          effects := [.sheetGet targetType targetId]
          state := st }
  else if t = "開始".toList ∨ jsToLower t = "start".toList then
    match ensureStartISO env st targetType targetId with
    | (some d, st1, eff1) =>
        let cur := getCurrentDayAndType env.dayTypeMap d env.today
        { reply := some (.startExisting cur.1 (dayTypeLabel cur.2))
          effects := eff1
          state := st1 }
    | (none, st1, eff1) =>
        let key := cacheKey_ targetType targetId
        let cur := getCurrentDayAndType env.dayTypeMap env.today env.today
        let companion := (env.companionByDay cur.1).getD companionDefaultStartNew
        { reply := some (.startNew cur.1 (dayTypeLabel cur.2) companion)
          effects := eff1 ++ [.cacheWrite key env.today,
                              .sheetUpsert targetType targetId env.today]
          state := { st1 with startCache := setKey st1.startCache key env.today } }
  else if t = "重新開始".toList then
    let key := cacheKey_ targetType targetId
    { reply := some .restartDone
      effects := [.cacheWrite key env.today,
                  .sheetUpsert targetType targetId env.today]
      state := { st with startCache := setKey st.startCache key env.today } }
  else
    match parseSetDay t with
    | some inputDay =>
        if inputDay < 1 ∨ 45 < inputDay then
          { reply := some .setDayInvalid, effects := [], state := st }
        else
          let startISO := buildStartISOFromDayInput env.today (inputDay : Int)
          let key := cacheKey_ targetType targetId
          let dayType := resolveDayType env.dayTypeMap (inputDay : Int)
          let companion := (env.companionByDay (inputDay : Int)).getD
            companionDefaultSetDay
          { reply := some (.setDayOk inputDay (dayTypeLabel dayType) companion)
            effects := [.cacheWrite key startISO,
                        .sheetUpsert targetType targetId startISO]
            state := { st with startCache := setKey st.startCache key startISO } }
    | none =>
        if t = "今天菜單".toList ∨ t = "今日菜單".toList ∨
            jsIncludes t "今天是哪一天".toList = true ∨ t = "今天是哪天".toList then
          match ensureStartISO env st targetType targetId with
          | (none, st1, eff1) =>
              { reply := some .menuNoStart, effects := eff1, state := st1 }
          | (some d, st1, eff1) =>
              let cur := getCurrentDayAndType env.dayTypeMap d env.today
              let companion := (env.companionByDay cur.1).getD companionDefaultMenu
              let push := (env.pushTemplates cur.2).getD []
              { reply := some (.menuMsg cur.1 (dayTypeLabel cur.2) push companion)
                effects := eff1
                state := st1 }
        else if t = "陪伴提醒".toList ∨ t = "鼓勵我".toList ∨
            t = "提醒我".toList then
          match ensureStartISO env st targetType targetId with
          | (none, st1, eff1) =>
              { reply := some .companionNoStart, effects := eff1, state := st1 }
          | (some d, st1, eff1) =>
              let cur := getCurrentDayAndType env.dayTypeMap d env.today
              let companion := (env.companionByDay cur.1).getD companionDefaultMenu
              { reply := some (.companionLine companion)
                effects := eff1
                state := st1 }
        else
          match findTimeToken t with
          | some tok =>
              match ensureStartISO env st targetType targetId with
              | (none, st1, eff1) =>
                  { reply := some .timeSlotNoStart, effects := eff1, state := st1 }
              | (some d, st1, eff1) =>
                  let cur := getCurrentDayAndType env.dayTypeMap d env.today
                  match env.menuDetails cur.2 tok with
                  | none =>
                      { reply := some (.timeSlotNoContent (dayTypeLabel cur.2))
                        effects := eff1
                        state := st1 }
                  | some slot =>
                      { reply := some (.timeSlotDetail cur.1 (dayTypeLabel cur.2)
                          tok slot)
                        effects := eff1
                        state := st1 }
          | none =>
              match matchFAQ env.faqItems t with
              | some ans =>
                  { reply := some (.faqAnswer ans), effects := [], state := st }
              | none =>
                  { reply := some .fallbackMsg, effects := [], state := st }

/-- The input preprocessing of `handleEvent` (src/index.js:622-627): trim,
full-width `？` to `?`, whitespace runs to single spaces, trim again. -/
def prep (raw : Text) : Text :=
  trimWs (collapseWs (fullWidthQToHalf (trimWs raw)))

/-- `handleEvent` (src/index.js:617-804) for a text message: preprocess,
apply the group/room `#` scope filter, then run the resolver chain. -/
def handleEvent (env : Env) (st : BotState)
    (targetType : TargetType) (targetId : String) (raw : Text) : HandleOutput :=
  let text := prep raw
  match targetType with
  | .user => routeText env st .user targetId text
  | tt =>
      if "#".toList.isPrefixOf text then
        let text2 := trimWs (text.drop 1)
        if text2 = [] then { reply := none, effects := [], state := st }
        else routeText env st tt targetId text2
      else { reply := none, effects := [], state := st }

/-! ## Classifiers and spec-side definitions used by the theorems -/

/-- Replies produced by the AI-trigger branch (src/index.js:640-664). -/
def Reply.isAiReply : Reply → Bool
  | .waitMsg => true
  | .usageHint => true
  | .aiAnswerText _ => true
  | _ => false

/-- Replies produced by the time-slot branch (src/index.js:774-785). -/
def Reply.isTimeSlotReply : Reply → Bool
  | .timeSlotNoStart => true
  | .timeSlotNoContent _ => true
  | .timeSlotDetail _ _ _ _ => true
  | _ => false

/-- Contribution of one raw keyword to an item's score against the
normalized input `t`: `min(3, ceil(length/2))` of the normalized, folded
keyword when it is a substring of `t`; zero for empty or missing keywords
(`⌈n/2⌉ = (n+1)/2` on naturals). -/
def kwScore (t kwRaw : Text) : Nat :=
  let kw := applySynonyms (normalizeText kwRaw)
  if kw = [] then 0
  else if jsIncludes t kw then min 3 ((kw.length + 1) / 2)
  else 0

/-- Spec-side per-item score: the sum over the item's keywords of their
contributions (spec §4.4). -/
def itemScoreSpec (t : Text) (item : FAQItem) : Nat :=
  (item.keywords.map (kwScore t)).sum

/-- The effective score an item competes with inside `matchFAQ`: items with
no answer are skipped, which is the same as competing with score zero. -/
def effScore (t : Text) (item : FAQItem) : Nat :=
  if item.answer = [] then 0 else itemScoreSpec t item

/-- One step of the best-item fold of `matchFAQ`, in uniform form: replace
the current best exactly on a strictly larger effective score. -/
def stepBest (t : Text) (b : Option Text × Nat) (item : FAQItem) :
    Option Text × Nat :=
  if b.2 < effScore t item then (some item.answer, effScore t item) else b

/-! ## Concrete fixtures used by witnesses and counterexamples -/

/-- A concrete environment: no knowledge tables, no sheet record, identity
backend, day index 10, clock 1000000 ms. -/
def wEnv : Env :=
  { faqItems := []
    dayTypeMap := fun _ => none
    menuDetails := fun _ _ => none
    pushTemplates := fun _ => none
    companionByDay := fun _ => none
    sheet := fun _ _ => none
    backend := fun q => q
    today := 10
    now := 1000000 }

/-- The concrete environment with a durable-store record: the sheet holds
start date 5 for every conversation. -/
def wEnvSheet : Env := { wEnv with sheet := fun _ _ => some 5 }

/-- The empty process state: no cooldowns, no cached start dates. -/
def wSt : BotState :=
  { aiCooldown := fun _ => none, startCache := fun _ => none }

/-- The empty state with start date 5 cached for conversation `user:u`. -/
def wStCached : BotState :=
  { wSt with startCache := fun k => if k = "user:u" then some 5 else none }

/-! # Theorems -/

/-- A cons list never equals a list with a different head. -/
theorem head_mismatch {c : Char} {r : Text} {s : Text}
    (he : (c :: r) = s) (h : s.head? ≠ some c) : False := by
  rw [← he] at h
  simp at h

/-- A pattern is no prefix of a list whose head differs from its own. -/
theorem isPrefixOf_false_of_head_ne (p : Text) (a : Char)
    (ha : p.head? = some a) {c : Char} (r : Text) (h : a ≠ c) :
    ¬(p.isPrefixOf (c :: r) = true) := by
  cases p with
  | nil => simp at ha
  | cons x xs =>
      simp only [List.head?_cons, Option.some.injEq] at ha
      simp only [List.isPrefixOf, Bool.and_eq_true, beq_iff_eq]
      intro hp
      exact h (ha ▸ hp.1)

/-- C3: for every day number N in [1,45], with today held fixed, building a
start date from N via `buildStartISOFromDayInput` (start = today - (N-1)
days) and then computing the current day from that start date yields
exactly N. -/
theorem c3_set_day_roundtrip (dayTypeMap : Int → Option String)
    (today N : Int) (h1 : 1 ≤ N) (h45 : N ≤ 45) :
    (getCurrentDayAndTypeFromStartISO_ dayTypeMap
        (some (buildStartISOFromDayInput today N)) today).map Prod.fst =
      some N := by
  simp only [getCurrentDayAndTypeFromStartISO_, getCurrentDayAndType,
    buildStartISOFromDayInput, daysBetweenISO, clampDay, Option.map_some']
  have : today - (today - (N - 1)) + 1 = N := by omega
  rw [this]
  split_ifs with hlt hgt
  · omega
  · omega
  · rfl

/-- Witness for C3 at N = 12, today = 0. -/
theorem c3_set_day_roundtrip_witness :
    (1 : Int) ≤ 12 ∧ (12 : Int) ≤ 45 ∧
      (getCurrentDayAndTypeFromStartISO_ (fun _ => none)
          (some (buildStartISOFromDayInput 0 12)) 0).map Prod.fst = some 12 :=
  ⟨by norm_num, by norm_num,
   c3_set_day_roundtrip (fun _ => none) 0 12 (by norm_num) (by norm_num)⟩

/-- C7: for every start date and today, the computed current program day is
in [1,45], no matter how far apart the two dates are. -/
theorem c7_current_day_clamped (dayTypeMap : Int → Option String)
    (startISO today day : Int) (dt : String)
    (h : getCurrentDayAndTypeFromStartISO_ dayTypeMap (some startISO) today =
      some (day, dt)) :
    1 ≤ day ∧ day ≤ 45 := by
  simp only [getCurrentDayAndTypeFromStartISO_, getCurrentDayAndType,
    Option.some.injEq, Prod.mk.injEq] at h
  obtain ⟨hday, -⟩ := h
  subst hday
  unfold clampDay
  split_ifs <;> omega

/-- Witness for C7 with a start date far in the future (start 100, today 0). -/
theorem c7_current_day_clamped_witness :
    getCurrentDayAndTypeFromStartISO_ (fun _ => none) (some 100) 0 =
        some (1, "SLIM") ∧
      1 ≤ (1 : Int) ∧ (1 : Int) ≤ 45 :=
  ⟨by decide, c7_current_day_clamped (fun _ => none) 100 0 1 "SLIM" (by decide)⟩

/-- C8 counterexample: the claim says interior single spaces between words
are preserved by `normalizeText`; in fact `normalizeText "a b" = "ab"`,
because the source replaces every whitespace run with the empty string, not
with a single space. -/
theorem c8_counterexample :
    normalizeText ('a' :: ' ' :: 'b' :: []) = ['a', 'b'] ∧
      normalizeText ('a' :: ' ' :: 'b' :: []) ≠ ['a', ' ', 'b'] := by
  decide

/-- C8 amended: `normalizeText` lowercases, deletes every whitespace
character (so interior spaces are removed, not preserved; trimming is
vacuous) and strips the fixed punctuation set: its output contains no
whitespace and no stripped punctuation, and inserting a space anywhere in
the input does not change the output. -/
theorem c8_normalize_amended (s a b : Text) :
    (∀ c ∈ normalizeText s, isJsWs c = false ∧ isStrippedPunct c = false) ∧
      normalizeText (a ++ ' ' :: b) = normalizeText (a ++ b) := by
  constructor
  · intro c hc
    simp only [normalizeText, List.mem_filter, Bool.not_eq_true'] at hc
    exact ⟨hc.1.2, hc.2⟩
  · simp [normalizeText, jsToLower, List.filter_append, isJsWs]

/-- C10: outside its cooldown window, a message that is just the trigger
phrase `請問` gets the usage-hint reply, the backend is not invoked, yet the
cooldown timestamp is still set to now — so a second trigger message within
the next 20000 ms gets the wait message. -/
theorem c10_bare_trigger_spends_cooldown (env : Env) (st : BotState)
    (tid : String) (raw raw2 : Text) (t2 : Int)
    (hpre : prep raw = "請問".toList)
    (hgate : 20000 ≤ env.now - (st.aiCooldown tid).getD 0)
    (hpre2 : "請問".toList.isPrefixOf (prep raw2) = true)
    (hwin : t2 - env.now < 20000) :
    (handleEvent env st .user tid raw).reply = some .usageHint ∧
    (∀ q, Effect.callBackend q ∉ (handleEvent env st .user tid raw).effects) ∧
    (handleEvent env st .user tid raw).state.aiCooldown tid = some env.now ∧
    (handleEvent { env with now := t2 }
        (handleEvent env st .user tid raw).state .user tid raw2).reply =
      some .waitMsg := by
  have hout1 : handleEvent env st .user tid raw =
      { reply := some .usageHint
        effects := [.setCooldown tid env.now]
        state := { st with aiCooldown := setKey st.aiCooldown tid env.now } } := by
    show routeText env st .user tid (prep raw) = _
    rw [hpre]
    show aiBranch env st tid ("請問".toList) = _
    unfold aiBranch
    rw [if_neg (by omega)]
    simp [trimWs]
  rw [hout1]
  refine ⟨rfl, by simp, by simp [setKey], ?_⟩
  show (routeText { env with now := t2 }
    { st with aiCooldown := setKey st.aiCooldown tid env.now } .user tid
    (prep raw2)).reply = some .waitMsg
  unfold routeText
  rw [if_pos hpre2]
  unfold aiBranch
  rw [if_pos (by simp [setKey]; omega)]

/-- Witness for C10: conversation `u`, first message `請問` at 1000000 ms
with no prior cooldown, second message `請問腸道健康跟什麼有關係?` at
1005000 ms. -/
theorem c10_bare_trigger_spends_cooldown_witness :
    (handleEvent wEnv wSt .user "u" "請問".toList).reply = some .usageHint ∧
    (∀ q, Effect.callBackend q ∉
      (handleEvent wEnv wSt .user "u" "請問".toList).effects) ∧
    (handleEvent wEnv wSt .user "u" "請問".toList).state.aiCooldown "u" =
      some 1000000 ∧
    (handleEvent { wEnv with now := 1005000 }
        (handleEvent wEnv wSt .user "u" "請問".toList).state .user "u"
        "請問腸道健康跟什麼有關係?".toList).reply = some .waitMsg :=
  c10_bare_trigger_spends_cooldown wEnv wSt "u" "請問".toList
    "請問腸道健康跟什麼有關係?".toList 1005000
    (by decide) (by decide) (by decide) (by decide)

/-- C2: an AI-trigger request that passes the gate sets the stored
timestamp to now, and it does so before any backend call (the
`setCooldown` effect heads the trace); a second AI-trigger request from the
same conversation less than 20000 ms later gets exactly the wait message,
causes no backend call, and leaves the whole state (in particular the
stored timestamp) unchanged. -/
theorem c2_cooldown_gate (env : Env) (st : BotState) (tid : String)
    (raw1 raw2 : Text) (t2 : Int)
    (h1 : "請問".toList.isPrefixOf (prep raw1) = true)
    (h2 : "請問".toList.isPrefixOf (prep raw2) = true)
    (hgate : 20000 ≤ env.now - (st.aiCooldown tid).getD 0)
    (hwin : t2 - env.now < 20000) :
    (handleEvent env st .user tid raw1).state.aiCooldown tid = some env.now ∧
    (∃ rest, (handleEvent env st .user tid raw1).effects =
      Effect.setCooldown tid env.now :: rest) ∧
    (handleEvent { env with now := t2 }
        (handleEvent env st .user tid raw1).state .user tid raw2).reply =
      some .waitMsg ∧
    (∀ q, Effect.callBackend q ∉
      (handleEvent { env with now := t2 }
        (handleEvent env st .user tid raw1).state .user tid raw2).effects) ∧
    (handleEvent { env with now := t2 }
        (handleEvent env st .user tid raw1).state .user tid raw2).state =
      (handleEvent env st .user tid raw1).state := by
  have hstate : (handleEvent env st .user tid raw1).state =
      { st with aiCooldown := setKey st.aiCooldown tid env.now } := by
    show (routeText env st .user tid (prep raw1)).state = _
    unfold routeText
    rw [if_pos h1]
    unfold aiBranch
    rw [if_neg (by omega)]
    dsimp only
    split_ifs <;> rfl
  have heff : ∃ rest, (handleEvent env st .user tid raw1).effects =
      Effect.setCooldown tid env.now :: rest := by
    show ∃ rest, (routeText env st .user tid (prep raw1)).effects = _
    unfold routeText
    rw [if_pos h1]
    unfold aiBranch
    rw [if_neg (by omega)]
    dsimp only
    split_ifs
    · exact ⟨[], rfl⟩
    · exact ⟨[.callBackend (trimWs (((prep raw1).drop 2).dropWhile isJsWs))],
        rfl⟩
  have hout2 : handleEvent { env with now := t2 }
      (handleEvent env st .user tid raw1).state .user tid raw2 =
      { reply := some .waitMsg
        effects := []
        state := (handleEvent env st .user tid raw1).state } := by
    rw [hstate]
    show routeText _ _ .user tid (prep raw2) = _
    unfold routeText
    rw [if_pos h2]
    unfold aiBranch
    rw [if_pos (by simp [setKey]; omega)]
  refine ⟨?_, heff, ?_, ?_, ?_⟩
  · rw [hstate]; simp [setKey]
  · rw [hout2]
  · rw [hout2]; simp
  · rw [hout2]

/-- Witness for C2: conversation `u`, first request at 1000000 ms, second
5000 ms later. -/
theorem c2_cooldown_gate_witness :
    (handleEvent wEnv wSt .user "u" "請問喝咖啡可以嗎?".toList).state.aiCooldown
      "u" = some 1000000 ∧
    (∃ rest, (handleEvent wEnv wSt .user "u" "請問喝咖啡可以嗎?".toList).effects =
      Effect.setCooldown "u" 1000000 :: rest) ∧
    (handleEvent { wEnv with now := 1005000 }
        (handleEvent wEnv wSt .user "u" "請問喝咖啡可以嗎?".toList).state .user
        "u" "請問茶呢?".toList).reply = some .waitMsg ∧
    (∀ q, Effect.callBackend q ∉
      (handleEvent { wEnv with now := 1005000 }
        (handleEvent wEnv wSt .user "u" "請問喝咖啡可以嗎?".toList).state .user
        "u" "請問茶呢?".toList).effects) ∧
    (handleEvent { wEnv with now := 1005000 }
        (handleEvent wEnv wSt .user "u" "請問喝咖啡可以嗎?".toList).state .user
        "u" "請問茶呢?".toList).state =
      (handleEvent wEnv wSt .user "u" "請問喝咖啡可以嗎?".toList).state :=
  c2_cooldown_gate wEnv wSt "u" "請問喝咖啡可以嗎?".toList "請問茶呢?".toList
    1005000 (by decide) (by decide) (by decide) (by decide)

/-- C1 counterexample: the claim says command dispatch precedes the AI
trigger, so `請問今天是哪一天` — which contains the menu-command phrase
`今天是哪一天` — would be handled by command dispatch.  In the code the AI
trigger is checked first (src/index.js:640 before :745): with an identity
backend the reply is the AI answer for the stripped question, not a
menu-branch reply. -/
theorem c1_counterexample :
    (handleEvent wEnv wSt .user "u" "請問今天是哪一天".toList).reply =
        some (.aiAnswerText "今天是哪一天".toList) ∧
      jsIncludes (prep "請問今天是哪一天".toList) "今天是哪一天".toList = true ∧
      (handleEvent wEnv wSt .user "u" "請問今天是哪一天".toList).reply ≠
        some .menuNoStart := by
  decide

/-- C1 amended: in a direct conversation the resolver checks the AI
trigger first, then command dispatch, then FAQ, then the static fallback;
in particular every message starting with the trigger phrase `請問` is
answered by the AI branch (wait message, usage hint, or backend answer),
even when it also matches a command. -/
theorem c1_ai_trigger_precedes_commands (env : Env) (st : BotState)
    (tid : String) (raw : Text)
    (h : "請問".toList.isPrefixOf (prep raw) = true) :
    ∃ r, (handleEvent env st .user tid raw).reply = some r ∧
      r.isAiReply = true := by
  show ∃ r, (routeText env st .user tid (prep raw)).reply = some r ∧ _
  unfold routeText
  rw [if_pos h]
  unfold aiBranch
  dsimp only
  split_ifs
  · exact ⟨.waitMsg, rfl, rfl⟩
  · exact ⟨.usageHint, rfl, rfl⟩
  · exact ⟨.aiAnswerText (env.backend
      (trimWs (((prep raw).drop 2).dropWhile isJsWs))), rfl, rfl⟩

/-- Witness for C1 at the command-overlapping message `請問今天是哪一天`. -/
theorem c1_ai_trigger_precedes_commands_witness :
    ∃ r, (handleEvent wEnv wSt .user "u" "請問今天是哪一天".toList).reply =
        some r ∧ r.isAiReply = true :=
  c1_ai_trigger_precedes_commands wEnv wSt "u" "請問今天是哪一天".toList
    (by decide)

/-- A successful set-day parse forces the text to start with `第`. -/
theorem parseSetDay_head {t : Text} {n : Nat} (h : parseSetDay t = some n) :
    ∃ rest, t = '第' :: rest := by
  match t with
  | [] => simp [parseSetDay] at h
  | c :: rest =>
      by_cases hc : c = '第'
      · exact ⟨rest, by rw [hc]⟩
      · simp [parseSetDay, hc] at h

/-- C5 counterexample: the claim says every set-day message with a day
number outside [1,45] — its own example is `第100天` — draws the
validation guidance message.  In the code the set-day pattern only admits
one or two digits (`/^第\s*(\d{1,2})\s*天$/`), so `第100天` is not a set-day
command at all: with no FAQ data it falls through to the static fallback,
not the validation message (though indeed no state is written). -/
theorem c5_counterexample :
    (handleEvent wEnv wSt .user "u" "第100天".toList).reply =
        some .fallbackMsg ∧
      (handleEvent wEnv wSt .user "u" "第100天".toList).reply ≠
        some .setDayInvalid ∧
      (handleEvent wEnv wSt .user "u" "第100天".toList).effects = [] := by
  decide

/-- C5 amended: for every message the set-day pattern recognizes (`第N天`
with a 1-2 digit N) whose N is outside [1,45], the resolver replies with
the validation guidance message, produces no effects, and leaves the state
unchanged; day texts with three or more digits are not recognized as
set-day commands and fall through to later branches. -/
theorem c5_out_of_range_day_rejected (env : Env) (st : BotState)
    (tid : String) (raw : Text) (n : Nat)
    (hp : parseSetDay (prep raw) = some n) (hout : n < 1 ∨ 45 < n) :
    (handleEvent env st .user tid raw).reply = some .setDayInvalid ∧
      (handleEvent env st .user tid raw).effects = [] ∧
      (handleEvent env st .user tid raw).state = st := by
  obtain ⟨rest, hrest⟩ := parseSetDay_head hp
  rw [hrest] at hp
  have hout1 : handleEvent env st .user tid raw =
      { reply := some .setDayInvalid, effects := [], state := st } := by
    show routeText env st .user tid (prep raw) = _
    rw [hrest]
    unfold routeText
    rw [if_neg (isPrefixOf_false_of_head_ne _ '請' (by decide) _ (by decide))]
    rw [if_neg (by
      rintro (he | he | he) <;> exact head_mismatch he (by decide))]
    rw [if_neg (by intro he; exact head_mismatch he (by decide))]
    rw [if_neg (by intro he; exact head_mismatch he (by decide))]
    rw [if_neg (by
      rintro (he | he)
      · exact head_mismatch he (by decide)
      · simp only [jsToLower, List.map_cons] at he
        exact head_mismatch he (by decide))]
    rw [if_neg (by intro he; exact head_mismatch he (by decide))]
    rw [hp]
    dsimp only
    rw [if_pos hout]
  rw [hout1]
  exact ⟨rfl, rfl, rfl⟩

/-- Witness for C5 at the message `第0天`. -/
theorem c5_out_of_range_day_rejected_witness :
    (handleEvent wEnv wSt .user "u" "第0天".toList).reply =
        some .setDayInvalid ∧
      (handleEvent wEnv wSt .user "u" "第0天".toList).effects = [] ∧
      (handleEvent wEnv wSt .user "u" "第0天".toList).state = wSt :=
  c5_out_of_range_day_rejected wEnv wSt "u" "第0天".toList 0 (by decide)
    (by decide)

/-- On the same civil day as the start date the current day is 1. -/
theorem getCurrentDayAndType_today (m : Int → Option String) (today : Int) :
    getCurrentDayAndType m today today = (1, resolveDayType m 1) := by
  simp [getCurrentDayAndType, daysBetweenISO, clampDay]

/-- C6 counterexample: the claim says `開始` on a conversation that already
has a ProgramState performs no cache write; but when the start date lives
only in the durable store, `ensureStartISO` populates the in-memory cache,
which is a cache write (src/index.js:571). -/
theorem c6_counterexample :
    Effect.cacheWrite "user:u" 5 ∈
        (handleEvent wEnvSheet wSt .user "u" "開始".toList).effects ∧
      (handleEvent wEnvSheet wSt .user "u" "開始".toList).reply =
        some (.startExisting 6 "纖體日") := by
  decide

/-- C6 amended: `開始`/`start` is value-idempotent.  If the start date is
already cached, the reply reports the current day and nothing is written at
all; if it exists only in the durable store, the reply is the same, no
durable-store write happens, and the only cache write is `ensureStartISO`
populating the cache with the store's existing date; with no ProgramState
anywhere, one is created with start = today and the reply reports day 1
with its companion message. -/
theorem c6_start_idempotent (env : Env) (st : BotState) (tid : String)
    (raw : Text)
    (h : prep raw = "開始".toList ∨ jsToLower (prep raw) = "start".toList) :
    (∀ d, st.startCache (cacheKey_ .user tid) = some d →
      (handleEvent env st .user tid raw).reply =
          some (.startExisting (getCurrentDayAndType env.dayTypeMap d env.today).1
            (dayTypeLabel (getCurrentDayAndType env.dayTypeMap d env.today).2)) ∧
        (handleEvent env st .user tid raw).effects = [] ∧
        (handleEvent env st .user tid raw).state = st) ∧
    (∀ d, st.startCache (cacheKey_ .user tid) = none →
      env.sheet .user tid = some d →
      (handleEvent env st .user tid raw).reply =
          some (.startExisting (getCurrentDayAndType env.dayTypeMap d env.today).1
            (dayTypeLabel (getCurrentDayAndType env.dayTypeMap d env.today).2)) ∧
        (handleEvent env st .user tid raw).effects =
          [.sheetGet .user tid, .cacheWrite (cacheKey_ .user tid) d] ∧
        (∀ tt tid2 v, Effect.sheetUpsert tt tid2 v ∉
          (handleEvent env st .user tid raw).effects) ∧
        (handleEvent env st .user tid raw).state.startCache
          (cacheKey_ .user tid) = some d) ∧
    (st.startCache (cacheKey_ .user tid) = none →
      env.sheet .user tid = none →
      (handleEvent env st .user tid raw).reply =
          some (.startNew 1 (dayTypeLabel (resolveDayType env.dayTypeMap 1))
            ((env.companionByDay 1).getD companionDefaultStartNew)) ∧
        (handleEvent env st .user tid raw).effects =
          [.sheetGet .user tid, .cacheWrite (cacheKey_ .user tid) env.today,
           .sheetUpsert .user tid env.today] ∧
        (handleEvent env st .user tid raw).state.startCache
          (cacheKey_ .user tid) = some env.today) := by
  have hbranch : handleEvent env st .user tid raw =
      (match ensureStartISO env st .user tid with
       | (some d, st1, eff1) =>
           { reply := some (.startExisting
               (getCurrentDayAndType env.dayTypeMap d env.today).1
               (dayTypeLabel (getCurrentDayAndType env.dayTypeMap d env.today).2))
             effects := eff1
             state := st1 }
       | (none, st1, eff1) =>
           { reply := some (.startNew
               (getCurrentDayAndType env.dayTypeMap env.today env.today).1
               (dayTypeLabel
                 (getCurrentDayAndType env.dayTypeMap env.today env.today).2)
               ((env.companionByDay
                 (getCurrentDayAndType env.dayTypeMap env.today env.today).1).getD
                 companionDefaultStartNew))
             effects := eff1 ++ [.cacheWrite (cacheKey_ .user tid) env.today,
                                 .sheetUpsert .user tid env.today]
             state :=
               { st1 with
                 startCache :=
                   setKey st1.startCache (cacheKey_ .user tid) env.today } }) := by
    rcases h with h1 | h2
    · show routeText env st .user tid (prep raw) = _
      rw [h1]
      unfold routeText
      rw [if_neg (by decide)]
      rw [if_neg (by decide)]
      rw [if_neg (by decide)]
      rw [if_neg (by decide)]
      rw [if_pos (Or.inl rfl)]
    · show routeText env st .user tid (prep raw) = _
      unfold routeText
      rw [if_neg (by
        intro hpre
        obtain ⟨u, hu⟩ : ∃ u, prep raw = '請' :: u := by
          cases ht : prep raw with
          | nil => rw [ht] at hpre; simp [List.isPrefixOf] at hpre
          | cons x xs =>
              rw [ht] at hpre
              simp only [List.isPrefixOf, Bool.and_eq_true, beq_iff_eq] at hpre
              exact ⟨xs, by rw [← hpre.1]⟩
        rw [hu] at h2
        simp only [jsToLower, List.map_cons] at h2
        exact head_mismatch h2 (by decide))]
      rw [if_neg (by
        rintro (he | he | he) <;>
          (rw [he] at h2; exact absurd h2 (by decide)))]
      rw [if_neg (by intro he; rw [he] at h2; exact absurd h2 (by decide))]
      rw [if_neg (by intro he; rw [he] at h2; exact absurd h2 (by decide))]
      rw [if_pos (Or.inr h2)]
  refine ⟨?_, ?_, ?_⟩
  · intro d hc
    have he : ensureStartISO env st .user tid = (some d, st, []) := by
      unfold ensureStartISO
      dsimp only
      rw [hc]
    rw [hbranch, he]
    exact ⟨rfl, rfl, rfl⟩
  · intro d hc hs
    have he : ensureStartISO env st .user tid =
        (some d,
         { st with startCache := setKey st.startCache (cacheKey_ .user tid) d },
         [.sheetGet .user tid, .cacheWrite (cacheKey_ .user tid) d]) := by
      unfold ensureStartISO
      dsimp only
      rw [hc, hs]
    rw [hbranch, he]
    refine ⟨rfl, rfl, ?_, by simp [setKey]⟩
    intro tt tid2 v hm
    simp at hm
  · intro hc hs
    have he : ensureStartISO env st .user tid =
        (none, st, [.sheetGet .user tid]) := by
      unfold ensureStartISO
      dsimp only
      rw [hc, hs]
    rw [hbranch, he]
    refine ⟨?_, rfl, by simp [setKey]⟩
    simp [getCurrentDayAndType_today]

/-- Witness for C6 in the durable-store-only case: the sheet holds start
date 5 for conversation `u`, today is day index 10. -/
theorem c6_start_idempotent_witness :
    (handleEvent wEnvSheet wSt .user "u" "開始".toList).reply =
        some (.startExisting 6 "纖體日") ∧
      (handleEvent wEnvSheet wSt .user "u" "開始".toList).effects =
        [.sheetGet .user "u", .cacheWrite "user:u" 5] ∧
      (∀ tt tid2 v, Effect.sheetUpsert tt tid2 v ∉
        (handleEvent wEnvSheet wSt .user "u" "開始".toList).effects) ∧
      (handleEvent wEnvSheet wSt .user "u" "開始".toList).state.startCache
        "user:u" = some 5 :=
  (c6_start_idempotent wEnvSheet wSt "u" "開始".toList
    (Or.inl (by decide))).2.1 5 (by decide) (by decide)

/-- The unanchored time-slot regex finds a label exactly when some label
occurs as a substring of the text. -/
theorem findTimeToken_isSome_iff (t : Text) :
    (findTimeToken t).isSome = true ↔
      ∃ tok ∈ timeTokens, jsIncludes t tok = true := by
  induction t with
  | nil =>
      simp only [findTimeToken, Option.isSome_none]
      constructor
      · intro h; exact absurd h (by decide)
      · intro h; exact absurd h (by decide)
  | cons c rest ih =>
      cases hfind : timeTokens.find? (fun tok => tok.isPrefixOf (c :: rest)) with
      | some tok =>
          have hmem : tok ∈ timeTokens := List.mem_of_find?_eq_some hfind
          have hpre0 := List.find?_some hfind
          have hpre : tok.isPrefixOf (c :: rest) = true := hpre0
          have hsome : (findTimeToken (c :: rest)).isSome = true := by
            show (match timeTokens.find?
                (fun tok => List.isPrefixOf tok (c :: rest)) with
              | some tok => some tok
              | none => findTimeToken rest).isSome = true
            rw [hfind]
            rfl
          constructor
          · intro _
            exact ⟨tok, hmem, by unfold jsIncludes; rw [hpre]; rfl⟩
          · intro _
            exact hsome
      | none =>
          have hstep : findTimeToken (c :: rest) = findTimeToken rest := by
            show (match timeTokens.find?
                (fun tok => List.isPrefixOf tok (c :: rest)) with
              | some tok => some tok
              | none => findTimeToken rest) = findTimeToken rest
            rw [hfind]
          have hall : ∀ tok ∈ timeTokens, tok.isPrefixOf (c :: rest) = false := by
            intro tok hm
            have hnot := List.find?_eq_none.mp hfind tok hm
            cases hb : tok.isPrefixOf (c :: rest) with
            | false => rfl
            | true => exact absurd hb hnot
          rw [hstep, ih]
          constructor
          · rintro ⟨tok, hm, hi⟩
            refine ⟨tok, hm, ?_⟩
            unfold jsIncludes
            rw [hall tok hm, hi]
            rfl
          · rintro ⟨tok, hm, hi⟩
            refine ⟨tok, hm, ?_⟩
            unfold jsIncludes at hi
            rw [hall tok hm] at hi
            simpa using hi

/-- C9 counterexample: the claim says a message is routed to the time-slot
branch only when it is exactly one of the ten labels.  `看08:00` is not one
of the labels, yet it is routed there (the source regex is unanchored), as
its reply — the "start first" guidance of that branch — shows. -/
theorem c9_counterexample :
    (handleEvent wEnv wSt .user "u" "看08:00".toList).reply =
        some .timeSlotNoStart ∧
      "看08:00".toList ∉ timeTokens := by
  decide

/-- C9 amended: provided no earlier branch of the resolver matches, a
message is routed to the time-slot branch if and only if it contains one of
the ten fixed HH:MM labels as a substring — containment, not exact
equality, is what the unanchored regex tests. -/
theorem c9_time_slot_substring_routing (env : Env) (st : BotState)
    (tid : String) (raw t : Text)
    (ht : prep raw = t)
    (hq : "請問".toList.isPrefixOf t = false)
    (hh : ¬(t = "help".toList ∨ t = "幫助".toList ∨ t = "使用說明".toList))
    (hs : t ≠ "狀態".toList)
    (hd : t ≠ "debug-start".toList)
    (hst : ¬(t = "開始".toList ∨ jsToLower t = "start".toList))
    (hre : t ≠ "重新開始".toList)
    (hsd : parseSetDay t = none)
    (hmenu : ¬(t = "今天菜單".toList ∨ t = "今日菜單".toList ∨
      jsIncludes t "今天是哪一天".toList = true ∨ t = "今天是哪天".toList))
    (hcomp : ¬(t = "陪伴提醒".toList ∨ t = "鼓勵我".toList ∨
      t = "提醒我".toList)) :
    (∃ r, (handleEvent env st .user tid raw).reply = some r ∧
        r.isTimeSlotReply = true) ↔
      ∃ tok ∈ timeTokens, jsIncludes t tok = true := by
  subst ht
  have hroute : handleEvent env st .user tid raw =
      (match findTimeToken (prep raw) with
       | some tok =>
           (match ensureStartISO env st .user tid with
            | (none, st1, eff1) =>
                { reply := some .timeSlotNoStart, effects := eff1, state := st1 }
            | (some d, st1, eff1) =>
                (match env.menuDetails
                    (getCurrentDayAndType env.dayTypeMap d env.today).2 tok with
                 | none =>
                     { reply := some (.timeSlotNoContent (dayTypeLabel
                         (getCurrentDayAndType env.dayTypeMap d env.today).2))
                       effects := eff1
                       state := st1 }
                 | some slot =>
                     { reply := some (.timeSlotDetail
                         (getCurrentDayAndType env.dayTypeMap d env.today).1
                         (dayTypeLabel
                           (getCurrentDayAndType env.dayTypeMap d env.today).2)
                         tok slot)
                       effects := eff1
                       state := st1 }))
       | none =>
           (match matchFAQ env.faqItems (prep raw) with
            | some ans =>
                { reply := some (.faqAnswer ans), effects := [], state := st }
            | none =>
                { reply := some .fallbackMsg, effects := [], state := st })) := by
    show routeText env st .user tid (prep raw) = _
    unfold routeText
    rw [if_neg (by intro hcond; rw [hq] at hcond; exact Bool.false_ne_true hcond)]
    rw [if_neg hh, if_neg hs, if_neg hd, if_neg hst, if_neg hre, hsd]
    dsimp only
    rw [if_neg hmenu, if_neg hcomp]
  rw [hroute]
  cases hft : findTimeToken (prep raw) with
  | some tok =>
      have hex := (findTimeToken_isSome_iff (prep raw)).mp (by rw [hft]; rfl)
      constructor
      · intro _
        exact hex
      · intro _
        rcases hEq : ensureStartISO env st .user tid with ⟨o, st1, eff1⟩
        cases o with
        | none => exact ⟨.timeSlotNoStart, rfl, rfl⟩
        | some d =>
            dsimp only
            cases hmd : env.menuDetails
                (getCurrentDayAndType env.dayTypeMap d env.today).2 tok with
            | none =>
                exact ⟨.timeSlotNoContent (dayTypeLabel
                  (getCurrentDayAndType env.dayTypeMap d env.today).2), rfl, rfl⟩
            | some slot =>
                exact ⟨.timeSlotDetail
                  (getCurrentDayAndType env.dayTypeMap d env.today).1
                  (dayTypeLabel (getCurrentDayAndType env.dayTypeMap d env.today).2)
                  tok slot, rfl, rfl⟩
  | none =>
      have hnone : ¬∃ tok ∈ timeTokens, jsIncludes (prep raw) tok = true := by
        intro hex
        have := (findTimeToken_isSome_iff (prep raw)).mpr hex
        rw [hft] at this
        exact absurd this (by decide)
      constructor
      · rintro ⟨r, hr, hts⟩
        exfalso
        cases hfq : matchFAQ env.faqItems (prep raw) with
        | some ans =>
            rw [hfq] at hr
            cases hr
            simp [Reply.isTimeSlotReply] at hts
        | none =>
            rw [hfq] at hr
            cases hr
            simp [Reply.isTimeSlotReply] at hts
      · intro hex
        exact absurd hex hnone

/-- The keyword fold of `matchFAQ` computes the spec-side sum of keyword
contributions. -/
theorem faq_inner_foldl (t : Text) (l : List Text) (init : Nat) :
    l.foldl (fun sc kwRaw =>
        let kw := applySynonyms (normalizeText kwRaw)
        if kw = [] then sc
        else if jsIncludes t kw then sc + min 3 ((kw.length + 1) / 2)
        else sc) init = init + (l.map (kwScore t)).sum := by
  induction l generalizing init with
  | nil => simp
  | cons hd tl ih =>
      rw [List.foldl_cons, ih, List.map_cons, List.sum_cons]
      have hstep : (let kw := applySynonyms (normalizeText hd)
          if kw = [] then init
          else if jsIncludes t kw then init + min 3 ((kw.length + 1) / 2)
          else init) = init + kwScore t hd := by
        unfold kwScore
        dsimp only
        split_ifs <;> simp
      rw [hstep]
      omega

/-- The item fold of `matchFAQ` is the uniform best-replacement step: items
with no answer never win because they compete with score zero. -/
theorem faq_step_eq (t : Text) (b : Option Text × Nat) (item : FAQItem) :
    (if item.answer = [] then b
     else
       let score := item.keywords.foldl
         (fun sc kwRaw =>
           let kw := applySynonyms (normalizeText kwRaw)
           if kw = [] then sc
           else if jsIncludes t kw then sc + min 3 ((kw.length + 1) / 2)
           else sc) 0
       if b.2 < score then (some item.answer, score) else b) =
      stepBest t b item := by
  unfold stepBest effScore
  by_cases ha : item.answer = []
  · rw [if_pos ha, if_pos ha]
    rw [if_neg (by omega)]
  · rw [if_neg ha, if_neg ha]
    dsimp only
    rw [faq_inner_foldl, Nat.zero_add]
    rfl

/-- `matchFAQ` in terms of the uniform step fold. -/
theorem matchFAQ_eq_fold (items : List FAQItem) (text : Text) :
    matchFAQ items text =
      (if applySynonyms (normalizeText text) = [] then none
       else
         if 1 ≤ (items.foldl (stepBest (applySynonyms (normalizeText text)))
             (none, 0)).2 then
           (items.foldl (stepBest (applySynonyms (normalizeText text)))
             (none, 0)).1
         else none) := by
  unfold matchFAQ
  have hfun : (fun (best : Option Text × Nat) item =>
      if item.answer = [] then best
      else
        let score := item.keywords.foldl
          (fun sc kwRaw =>
            let kw := applySynonyms (normalizeText kwRaw)
            if kw = [] then sc
            else if jsIncludes (applySynonyms (normalizeText text)) kw then
              sc + min 3 ((kw.length + 1) / 2)
            else sc) 0
        if best.2 < score then (some item.answer, score) else best) =
      stepBest (applySynonyms (normalizeText text)) := by
    funext b item
    exact faq_step_eq (applySynonyms (normalizeText text)) b item
  dsimp only
  rw [hfun]

/-- The best-item fold either keeps its accumulator (nothing strictly
beats it) or returns the first item whose effective score strictly exceeds
the accumulator and everything before it, and is not exceeded later. -/
theorem foldBest_char (t : Text) (items : List FAQItem)
    (b : Option Text × Nat) :
    (items.foldl (stepBest t) b = b ∧ ∀ x ∈ items, effScore t x ≤ b.2) ∨
    (∃ pre item suf, items = pre ++ item :: suf ∧
      items.foldl (stepBest t) b = (some item.answer, effScore t item) ∧
      b.2 < effScore t item ∧
      (∀ x ∈ pre, effScore t x < effScore t item) ∧
      (∀ x ∈ suf, effScore t x ≤ effScore t item)) := by
  induction items generalizing b with
  | nil => exact Or.inl ⟨rfl, by simp⟩
  | cons it rest ih =>
      rw [List.foldl_cons]
      by_cases hlt : b.2 < effScore t it
      · have hb' : stepBest t b it = (some it.answer, effScore t it) :=
          if_pos hlt
        rw [hb']
        rcases ih (some it.answer, effScore t it) with ⟨hfold, hle⟩ |
          ⟨pre, item, suf, heq, hfold, hgt, hpre, hsuf⟩
        · right
          refine ⟨[], it, rest, rfl, by rw [hfold], hlt, by simp, ?_⟩
          intro x hx
          exact hle x hx
        · right
          refine ⟨it :: pre, item, suf, by simp [heq], hfold,
            lt_trans hlt hgt, ?_, hsuf⟩
          intro x hx
          rcases List.mem_cons.mp hx with h1 | h2
          · rw [h1]; exact hgt
          · exact hpre x h2
      · have hb' : stepBest t b it = b := if_neg hlt
        rw [hb']
        rcases ih b with ⟨hfold, hle⟩ |
          ⟨pre, item, suf, heq, hfold, hgt, hpre, hsuf⟩
        · left
          refine ⟨hfold, ?_⟩
          intro x hx
          rcases List.mem_cons.mp hx with h1 | h2
          · rw [h1]; exact Nat.le_of_not_lt hlt
          · exact hle x h2
        · right
          refine ⟨it :: pre, item, suf, by simp [heq], hfold, hgt, ?_, hsuf⟩
          intro x hx
          rcases List.mem_cons.mp hx with h1 | h2
          · rw [h1]; exact lt_of_le_of_lt (Nat.le_of_not_lt hlt) hgt
          · exact hpre x h2

/-- If one split point of a list lies strictly left of another, the second
split's left part contains the first split's distinguished element. -/
theorem mem_left_of_earlier {α : Type} (pre suf pre' suf' : List α)
    (x y : α) (h : pre ++ x :: suf = pre' ++ y :: suf')
    (hlt : pre.length < pre'.length) : x ∈ pre' := by
  have hx : (pre ++ x :: suf)[pre.length]? = some x := by
    rw [List.getElem?_append_right (le_refl pre.length)]
    simp
  rw [h] at hx
  have hlen : pre.length < pre'.length := hlt
  rw [List.getElem?_append_left hlen] at hx
  exact List.getElem?_mem hx

/-- C4: `matchFAQ` returns an answer exactly when, after normalizing and
synonym-folding the input to a nonempty text, some item in the list has a
nonempty answer, per-keyword score sum (`min(3, ceil(len/2))` for each
normalized keyword occurring as a substring, empty keywords skipped) at
least 1, strictly exceeds every earlier item's effective score, is not
exceeded by any item, and the returned answer is that item's; items with an
empty answer compete with effective score 0. -/
theorem c4_matchFAQ_characterization (items : List FAQItem) (text a : Text) :
    matchFAQ items text = some a ↔
      (applySynonyms (normalizeText text) ≠ [] ∧
       ∃ pre item suf, items = pre ++ item :: suf ∧
         item.answer ≠ [] ∧
         1 ≤ itemScoreSpec (applySynonyms (normalizeText text)) item ∧
         a = item.answer ∧
         (∀ x ∈ pre, effScore (applySynonyms (normalizeText text)) x <
           effScore (applySynonyms (normalizeText text)) item) ∧
         (∀ x ∈ items, effScore (applySynonyms (normalizeText text)) x ≤
           effScore (applySynonyms (normalizeText text)) item)) := by
  rw [matchFAQ_eq_fold]
  by_cases hT : applySynonyms (normalizeText text) = []
  · rw [if_pos hT]
    simp [hT]
  · rw [if_neg hT]
    rcases foldBest_char (applySynonyms (normalizeText text)) items (none, 0)
      with ⟨hfold, hle⟩ | ⟨pre, item, suf, heq, hfold, hgt, hpre, hsuf⟩
    · rw [hfold]
      rw [if_neg (by omega)]
      constructor
      · intro hc
        exact absurd hc (by simp)
      · rintro ⟨-, pre', item', suf', heq', hans', hsc', -, -, -⟩
        exfalso
        have hmem : item' ∈ items := by
          rw [heq']
          exact List.mem_append_right _ (List.mem_cons_self _ _)
        have h0 := hle item' hmem
        have heff : effScore (applySynonyms (normalizeText text)) item' =
            itemScoreSpec (applySynonyms (normalizeText text)) item' := by
          unfold effScore
          rw [if_neg hans']
        rw [heff] at h0
        omega
      -- fold kept (none, 0): nothing scores above 0, threshold fails
    · have hans : item.answer ≠ [] := by
        intro he
        have : effScore (applySynonyms (normalizeText text)) item = 0 := by
          unfold effScore
          rw [if_pos he]
        omega
      have heff : effScore (applySynonyms (normalizeText text)) item =
          itemScoreSpec (applySynonyms (normalizeText text)) item := by
        unfold effScore
        rw [if_neg hans]
      have hallI : ∀ x ∈ items,
          effScore (applySynonyms (normalizeText text)) x ≤
            effScore (applySynonyms (normalizeText text)) item := by
        intro x hx
        rw [heq] at hx
        rcases List.mem_append.mp hx with h1 | h2
        · exact le_of_lt (hpre x h1)
        · rcases List.mem_cons.mp h2 with h3 | h4
          · rw [h3]
          · exact hsuf x h4
      rw [hfold]
      rw [if_pos (by omega)]
      constructor
      · intro hsome
        have ha : item.answer = a := by
          injection hsome
        exact ⟨hT, pre, item, suf, heq, hans, by rw [← heff]; omega, ha.symm,
          hpre, hallI⟩
      · rintro ⟨-, pre', item', suf', heq', hans', hsc', ha', hpre', hall'⟩
        have heff' : effScore (applySynonyms (normalizeText text)) item' =
            itemScoreSpec (applySynonyms (normalizeText text)) item' := by
          unfold effScore
          rw [if_neg hans']
        have hmemI : item ∈ items := by
          rw [heq]
          exact List.mem_append_right _ (List.mem_cons_self _ _)
        have hmemI' : item' ∈ items := by
          rw [heq']
          exact List.mem_append_right _ (List.mem_cons_self _ _)
        have heffeq : effScore (applySynonyms (normalizeText text)) item =
            effScore (applySynonyms (normalizeText text)) item' :=
          le_antisymm (hall' item hmemI) (hallI item' hmemI')
        have hlen : pre.length = pre'.length := by
          by_contra hne
          rcases Nat.lt_or_ge pre.length pre'.length with hlt | hge
          · have : item ∈ pre' :=
              mem_left_of_earlier pre suf pre' suf' item item'
                (heq.symm.trans heq') hlt
            have := hpre' item this
            omega
          · have hlt' : pre'.length < pre.length :=
              lt_of_le_of_ne hge (Ne.symm hne)
            have : item' ∈ pre :=
              mem_left_of_earlier pre' suf' pre suf item' item
                (heq'.symm.trans heq) hlt'
            have := hpre item' this
            omega
        have hsplit := heq.symm.trans heq'
        have := List.append_inj hsplit hlen
        obtain ⟨-, htail⟩ := this
        have hitem : item = item' := (List.cons_eq_cons.mp htail).1
        rw [hitem, ha']

/-- Witness for C4: one item keyed `咖啡` matched by the input `咖啡`. -/
theorem c4_matchFAQ_characterization_witness :
    matchFAQ [⟨["咖啡".toList], "ANS".toList⟩] "咖啡".toList =
      some "ANS".toList :=
  (c4_matchFAQ_characterization [⟨["咖啡".toList], "ANS".toList⟩]
      "咖啡".toList "ANS".toList).mpr
    ⟨by decide, [], ⟨["咖啡".toList], "ANS".toList⟩, [], rfl, by decide,
     by decide, rfl, by simp,
     by
       intro x hx
       simp only [List.mem_singleton] at hx
       rw [hx]⟩

/-- Witness for C9 at the containing-but-not-equal message `看08:00`. -/
theorem c9_time_slot_substring_routing_witness :
    (∃ r, (handleEvent wEnv wSt .user "u" "看08:00".toList).reply = some r ∧
        r.isTimeSlotReply = true) ↔
      ∃ tok ∈ timeTokens, jsIncludes "看08:00".toList tok = true :=
  c9_time_slot_substring_routing wEnv wSt "u" "看08:00".toList
    "看08:00".toList (by decide) (by decide) (by decide) (by decide)
    (by decide) (by decide) (by decide) (by decide) (by decide) (by decide)

end LineBot
